import Mathlib

/-!
Verification of the elliptic-curve key/signature marshalling core
(`src/aws-lc-rs/src/ec.rs`) against its natural-language specification.

The file is a shallow embedding: every Rust function of `ec.rs` that the
claims touch is translated into an executable Lean definition.  The curve
engine (AWS-LC's C primitives: `d2i_PrivateKey`, `EVP_parse_public_key`,
`EC_POINT_oct2point`, `EC_KEY_check_key`, ...) is an external collaborator
of the specified core, so it is modelled as a record of abstract functions
(`Engine`); theorems quantify over engines, and concrete engines are
supplied for witnesses and counterexamples.  Engine handles (`EC_KEY`,
`EVP_PKEY`, `EC_GROUP`, `EC_POINT`, `BIGNUM`) are modelled as concrete
records/naturals; allocation failures of `EC_KEY_new`/`EVP_PKEY_new` and
of the setter calls on freshly allocated objects are out of scope and
modelled as succeeding.  Fallible Rust code returning
`Result<T, Unspecified>` / `Result<T, KeyRejected>` becomes
`Except Unspecified T` / `Except KeyRejected T`.  Rust slice writes and
`usize` subtraction are modelled with their checked (panicking)
semantics, so that panics are distinguishable from returned errors.
-/

/-- Model of the `EC_GROUP` engine handle: the only attribute the code
reads from it is its curve nid (`EC_GROUP_get_curve_name`). -/
structure ECGroup where
  nid : Int
deriving DecidableEq

/-- Model of the `EC_KEY` engine handle.  `EC_KEY_get0_group`,
`EC_KEY_get0_private_key` and `EC_KEY_get0_public_key` return null when the
component was never set, hence the `Option` fields.  The private key
(`BIGNUM`) is a natural number; the public key (`EC_POINT`) is an opaque
engine handle modelled as a natural code. -/
structure EC_KEY where
  group : Option ECGroup
  private_key : Option Nat
  public_key : Option Nat
deriving DecidableEq

/-- Model of the `EVP_PKEY` engine handle for EC keys:
`EVP_PKEY_get0_EC_KEY` returns null when no EC key was assigned. -/
structure EVP_PKEY where
  ec_key : Option EC_KEY
deriving DecidableEq

/-- Model of `error::KeyRejected` (the error module is outside `src/`):
`wrong_algorithm` is what the spec calls `WrongCurve`,
`inconsistent_components` is `InconsistentComponents`, `too_large` is
`TooLarge`, and `unexpected_error` models the `From<()>` conversion used
by the `?` operator on null-pointer results. -/
inductive KeyRejected where
  | wrong_algorithm
  | inconsistent_components
  | too_large
  | unexpected_error
deriving DecidableEq

/-- Model of `error::Unspecified`, the unit-like generic error. -/
inductive Unspecified where
  | unspecified
deriving DecidableEq

/-- The curve engine, the external collaborator of the core (spec section 1
declares it out of scope, section 6 fixes its contract).  Each field is one
engine primitive used by `ec.rs`; raw byte strings are `List Nat`,
`EC_POINT` handles are `Nat`, `BIGNUM`s are `Nat`. -/
structure Engine where
  EC_KEY_check_key : EC_KEY → Bool
  EVP_parse_public_key : List Nat → Option EVP_PKEY
  EC_GROUP_new_by_curve_name : Int → Option ECGroup
  EC_POINT_oct2point : ECGroup → List Nat → Option Nat
  EC_POINT_point2oct : ECGroup → Nat → Bool → Option (List Nat)
  d2i_PrivateKey : List Nat → Option EVP_PKEY
  EC_POINT_mul : ECGroup → Nat → Option Nat
  keygen : Int → Option EVP_PKEY
  EVP_marshal_public_key : EVP_PKEY → Option (List Nat)

/-- Fuel-indexed minimal big-endian byte string of a natural number; fuel
`x` is always enough since the value shrinks by a factor 256 each step. -/
def beBytesAux : Nat → Nat → List Nat
  | 0, _ => []
  | fuel + 1, x => if x = 0 then [] else beBytesAux fuel (x / 256) ++ [x % 256]

/-- Minimal big-endian bytes of a `BIGNUM` (the engine's `BN_bn2bin` /
`ConstPointer::<BIGNUM>::to_be_bytes`, which yields the empty string for
zero — `BN_num_bytes` of zero is 0). -/
def beBytes (x : Nat) : List Nat := beBytesAux x x

/-- The engine's `BN_num_bytes`: length of the minimal big-endian form. -/
def BN_num_bytes (bn : Nat) : Nat := (beBytes bn).length

/-- Modelled from the spec: the engine's fixed-width byte-conversion
primitive `BN_bn2bin_padded` (an AWS-LC primitive, outside this
repository).  Per its contract it writes the number big-endian into
exactly `size` bytes, left-padded with zeros, and reports failure exactly
when the number does not fit. -/
def BN_bn2bin_padded (size : Nat) (bn : Nat) : Option (List Nat) :=
  if BN_num_bytes bn ≤ size then
    some (List.replicate (size - BN_num_bytes bn) 0 ++ beBytes bn)
  else
    none

/-- Rust `Result::or`: keep the first result when it is `Ok`, otherwise
use the second one. -/
def resultOr (a b : Except ε α) : Except ε α :=
  match a with
  | .ok x => .ok x
  | .error _ => b

/-- Rust `usize` subtraction with its overflow-checked semantics: `none`
models the arithmetic-underflow panic (debug) / the wrapped value that
makes the subsequent slice indexing panic (release). -/
def checkedSub (a b : Nat) : Option Nat :=
  if b ≤ a then some (a - b) else none

/-- Rust `slice[start..stop].copy_from_slice(src)` semantics on an
immutable list: `none` models the panic when the range is invalid, out of
bounds, or of a different length than `src`. -/
def sliceWrite (buf : List Nat) (start stop : Nat) (src : List Nat) : Option (List Nat) :=
  if start ≤ stop ∧ stop ≤ buf.length ∧ src.length = stop - start then
    some (buf.take start ++ src ++ buf.drop stop)
  else
    none

/-- Outcome of `ecdsa_asn1_to_fixed`: a returned fixed-width signature, a
returned `Err(Unspecified)`, or a panic inside the buffer-filling closure.
The closure's output buffer is modelled from the spec (section 4.5, the
`Signature` type lives outside `src/`) as the `2n`-byte zero-initialised
buffer the closure fills and whose full extent it returns. -/
inductive ConvResult where
  | ok (bytes : List Nat)
  | errUnspecified
  | panic
deriving DecidableEq

/-- `ec.rs::ecdsa_asn1_to_fixed`.  `ECDSA_SIG_from_bytes` is the engine's
tagged-signature parser (returning the two arbitrary-precision components
`r` and `s`, with `ECDSA_SIG_get0_r`/`_s` folded in, as they cannot fail
on a parsed signature); `expected_number_size` is
`alg_id.private_key_size()`.  The body mirrors the Rust statement by
statement: parse, take minimal big-endian bytes of `r` and `s`, compute
the two start indices with `usize` subtraction, then perform the two
slice writes. -/
def ecdsa_asn1_to_fixed (ECDSA_SIG_from_bytes : List Nat → Option (Nat × Nat))
    (expected_number_size : Nat) (sig : List Nat) : ConvResult :=
  match ECDSA_SIG_from_bytes sig with
  | none => .errUnspecified
  | some (r, s) =>
    let r_buffer := beBytes r
    let s_buffer := beBytes s
    let slice := List.replicate (2 * expected_number_size) 0
    match checkedSub expected_number_size r_buffer.length with
    | none => .panic
    | some r_start =>
      match checkedSub (2 * expected_number_size) s_buffer.length with
      | none => .panic
      | some s_start =>
        match sliceWrite slice r_start expected_number_size r_buffer with
        | none => .panic
        | some slice1 =>
          match sliceWrite slice1 s_start (2 * expected_number_size) s_buffer with
          | none => .panic
          | some slice2 => .ok slice2

/-- `ec.rs::compressed_public_key_size_bytes`. -/
def compressed_public_key_size_bytes (curve_field_bits : Nat) : Nat :=
  1 + (curve_field_bits + 7) / 8

/-- `ec.rs::uncompressed_public_key_size_bytes`. -/
def uncompressed_public_key_size_bytes (curve_field_bits : Nat) : Nat :=
  1 + 2 * ((curve_field_bits + 7) / 8)

/-- The curve's scalar byte length, the `(bits + 7) / 8` expression the
source uses (`ELEM_MAX_BYTES` and both point-size functions). -/
def scalar_len_bytes (bits : Nat) : Nat := (bits + 7) / 8

/-- `ec.rs::verify_ec_key_nid`: read the key's group (null → error via
`?`), compare its curve nid with the expected one. -/
def verify_ec_key_nid (ec_key : EC_KEY) (expected_curve_nid : Int) :
    Except KeyRejected Unit :=
  match ec_key.group with
  | none => .error .unexpected_error
  | some ec_group =>
    let key_nid := ec_group.nid
    if key_nid ≠ expected_curve_nid then .error .wrong_algorithm
    else .ok ()

/-- `ec.rs::verify_evp_key_nid` (the `cfg(not(feature = "fips"))` item):
unwrap the EC key and check its nid. -/
def verify_evp_key_nid (evp_pkey : EVP_PKEY) (expected_curve_nid : Int) :
    Except KeyRejected Unit :=
  match evp_pkey.ec_key with
  | none => .error .unexpected_error
  | some ec_key => verify_ec_key_nid ec_key expected_curve_nid

/-- `ec.rs::validate_evp_key` in the default (non-FIPS) configuration:
nid check, then the engine's structural consistency check
`EC_KEY_check_key`, whose failure maps to `inconsistent_components`.
(The FIPS feature substitutes `EC_KEY_check_fips` as the checker; the
default build is the one modelled.) -/
def validate_evp_key (E : Engine) (evp_pkey : EVP_PKEY) (expected_curve_nid : Int) :
    Except KeyRejected Unit :=
  match evp_pkey.ec_key with
  | none => .error .unexpected_error
  | some ec_key =>
    match verify_ec_key_nid ec_key expected_curve_nid with
    | .error e => .error e
    | .ok () =>
      if E.EC_KEY_check_key ec_key then .ok ()
      else .error .inconsistent_components

/-- `ec.rs::marshal_private_key_to_buffer`: unwrap the EC key and its
private `BIGNUM` (null → `Unspecified` via `?`), then convert with the
engine's `BN_bn2bin_padded` into a `private_size`-byte buffer.  The
`debug_assert!(size <= private_size)` is a no-op in release builds and is
not a control-flow branch. -/
def marshal_private_key_to_buffer (private_size : Nat) (evp_pkey : EVP_PKEY) :
    Except Unspecified (List Nat) :=
  match evp_pkey.ec_key with
  | none => .error .unspecified
  | some ec_key =>
    match ec_key.private_key with
    | none => .error .unspecified
    | some private_bn =>
      match BN_bn2bin_padded private_size private_bn with
      | some buffer => .ok buffer
      | none => .error .unspecified

/-- The largest byte count representable in the engine's length type: the
input length is converted with `try_into()` to a C `long` (64-bit signed
on the supported targets), so conversion fails above `2^63 - 1`. -/
def C_LONG_MAX : Nat := 2 ^ 63 - 1

/-- `ec.rs::unmarshal_der_to_private_key` in the default (non-FIPS)
configuration: the `try_into` of the input length (mapped to `too_large`)
is evaluated before `d2i_PrivateKey` is called; a null result of
`d2i_PrivateKey` becomes a `KeyRejected` via `?` (`unexpected_error`);
then only the curve-nid check `verify_evp_key_nid` runs — per the source
comment, `d2i_PrivateKey` internally performs `EC_KEY_check_key`.  (The
FIPS feature substitutes the full `validate_evp_key` here.) -/
def unmarshal_der_to_private_key (E : Engine) (key_bytes : List Nat) (nid : Int) :
    Except KeyRejected EVP_PKEY :=
  if C_LONG_MAX < key_bytes.length then .error .too_large
  else
    match E.d2i_PrivateKey key_bytes with
    | none => .error .unexpected_error
    | some evp_pkey =>
      match verify_evp_key_nid evp_pkey nid with
      | .error e => .error e
      | .ok () => .ok evp_pkey

/-- `ec.rs::try_parse_subject_public_key_info_bytes`: the engine parses
the bytes as a SubjectPublicKeyInfo container (`EVP_parse_public_key`);
a null result becomes `Unspecified`. -/
def try_parse_subject_public_key_info_bytes (E : Engine) (key_bytes : List Nat) :
    Except Unspecified EVP_PKEY :=
  match E.EVP_parse_public_key key_bytes with
  | some key => .ok key
  | none => .error .unspecified

/-- `ec.rs::ec_group_from_nid` (`EC_GROUP_new_by_curve_name`); its
`Result<_, ()>` error is converted to the caller's error type by `?`,
folded here to `Unspecified` as in both call sites. -/
def ec_group_from_nid (E : Engine) (nid : Int) : Except Unspecified ECGroup :=
  match E.EC_GROUP_new_by_curve_name nid with
  | some g => .ok g
  | none => .error .unspecified

/-- `ec.rs::ec_point_from_bytes`: decode a raw point octet string on the
group via the engine's `EC_POINT_oct2point` (which performs the
decode-time curve-membership check); failure → `Unspecified`. -/
def ec_point_from_bytes (E : Engine) (ec_group : ECGroup) (bytes : List Nat) :
    Except Unspecified Nat :=
  match E.EC_POINT_oct2point ec_group bytes with
  | some p => .ok p
  | none => .error .unspecified

/-- `ec.rs::evp_pkey_from_public_point`: read the nid from the group,
assemble a fresh `EC_KEY` with that group and public point, wrap it into
an `EVP_PKEY`, and run `validate_evp_key` against the nid before
returning; a validation failure is converted to `Unspecified` by `?`. -/
def evp_pkey_from_public_point (E : Engine) (ec_group : ECGroup) (public_ec_point : Nat) :
    Except Unspecified EVP_PKEY :=
  let nid := ec_group.nid
  let ec_key : EC_KEY := ⟨some ec_group, none, some public_ec_point⟩
  let pkey : EVP_PKEY := ⟨some ec_key⟩
  match validate_evp_key E pkey nid with
  | .ok () => .ok pkey
  | .error _ => .error .unspecified

/-- `ec.rs::try_parse_public_key_raw_bytes`: group lookup from the
caller-supplied nid, raw-point decode, then `evp_pkey_from_public_point`. -/
def try_parse_public_key_raw_bytes (E : Engine) (key_bytes : List Nat)
    (expected_curve_nid : Int) : Except Unspecified EVP_PKEY :=
  match ec_group_from_nid E expected_curve_nid with
  | .error e => .error e
  | .ok ec_group =>
    match ec_point_from_bytes E ec_group key_bytes with
    | .error e => .error e
    | .ok pub_key_point => evp_pkey_from_public_point E ec_group pub_key_point

/-- `ec.rs::try_parse_public_key_bytes`: stage 1 parses a
SubjectPublicKeyInfo container and validates it against the expected nid
(`and_then`, validation errors mapped to `Unspecified`); `Result::or`
falls through to the raw-point stage 2 whenever stage 1 produced an
error. -/
def try_parse_public_key_bytes (E : Engine) (key_bytes : List Nat)
    (expected_curve_nid : Int) : Except Unspecified EVP_PKEY :=
  resultOr
    (match try_parse_subject_public_key_info_bytes E key_bytes with
     | .ok key =>
       match validate_evp_key E key expected_curve_nid with
       | .ok () => .ok key
       | .error _ => .error .unspecified
     | .error e => .error e)
    (try_parse_public_key_raw_bytes E key_bytes expected_curve_nid)

/-- `ec.rs::evp_pkey_from_private`: set group and private scalar on a
fresh `EC_KEY`, derive the public point as `private × generator` with the
engine's `EC_POINT_mul`, set it, assemble the `EVP_PKEY`, and run
`validate_evp_key` against the group's nid before returning. -/
def evp_pkey_from_private (E : Engine) (ec_group : ECGroup) (private_big_num : Nat) :
    Except Unspecified EVP_PKEY :=
  match E.EC_POINT_mul ec_group private_big_num with
  | none => .error .unspecified
  | some pub_key =>
    let expected_curve_nid := ec_group.nid
    let ec_key : EC_KEY := ⟨some ec_group, some private_big_num, some pub_key⟩
    let pkey : EVP_PKEY := ⟨some ec_key⟩
    match validate_evp_key E pkey expected_curve_nid with
    | .ok () => .ok pkey
    | .error _ => .error .unspecified

/-- `ec.rs::evp_key_from_public_private`: assemble a fresh `EC_KEY` from
the group, an optional public point and the private scalar, wrap it, and
run `validate_evp_key` against the group's nid before returning. -/
def evp_key_from_public_private (E : Engine) (ec_group : ECGroup)
    (public_ec_point : Option Nat) (private_bignum : Nat) :
    Except KeyRejected EVP_PKEY :=
  let ec_key : EC_KEY := ⟨some ec_group, some private_bignum, public_ec_point⟩
  let evp_pkey : EVP_PKEY := ⟨some ec_key⟩
  let nid := ec_group.nid
  match validate_evp_key E evp_pkey nid with
  | .ok () => .ok evp_pkey
  | .error e => .error e

/-- `ec.rs::evp_key_generate`: the engine's keygen primitive bound to the
nid (context allocation and init failures folded into the primitive's
failure, all surfacing as `Unspecified`). -/
def evp_key_generate (E : Engine) (nid : Int) : Except Unspecified EVP_PKEY :=
  match E.keygen nid with
  | some pkey => .ok pkey
  | none => .error .unspecified

/-- `ec.rs::ec_point_to_bytes`: the engine's `EC_POINT_point2oct` encodes
the point in the requested form; a zero return (encode failure, e.g.
point at infinity, or a too-small buffer) maps to `Unspecified`.  On
success the octets are written at the front of the caller's buffer and
the written length is returned. -/
def ec_point_to_bytes (E : Engine) (ec_group : ECGroup) (ec_point : Nat)
    (buf : List Nat) (compressed : Bool) : Except Unspecified (Nat × List Nat) :=
  match E.EC_POINT_point2oct ec_group ec_point compressed with
  | none => .error .unspecified
  | some octets =>
    if octets.length = 0 ∨ buf.length < octets.length then .error .unspecified
    else .ok (octets.length, octets ++ buf.drop octets.length)

/-- `ec.rs::marshal_ec_public_key_to_buffer`: unwrap group and public
point (null → `Unspecified`), pick the conversion form, encode. -/
def marshal_ec_public_key_to_buffer (E : Engine) (buffer : List Nat)
    (ec_key : EC_KEY) (compressed : Bool) : Except Unspecified (Nat × List Nat) :=
  match ec_key.group with
  | none => .error .unspecified
  | some ec_group =>
    match ec_key.public_key with
    | none => .error .unspecified
    | some ec_point => ec_point_to_bytes E ec_group ec_point buffer compressed

/-- `ec.rs::marshal_public_key_to_buffer`: unwrap the EC key and defer to
`marshal_ec_public_key_to_buffer`. -/
def marshal_public_key_to_buffer (E : Engine) (buffer : List Nat)
    (evp_pkey : EVP_PKEY) (compressed : Bool) : Except Unspecified (Nat × List Nat) :=
  match evp_pkey.ec_key with
  | none => .error .unspecified
  | some ec_key => marshal_ec_public_key_to_buffer E buffer ec_key compressed

/-- Modelled from the spec: `encode_container` (spec section 4.3) — the
public-key-info container encoding lives in the encoding/key-pair modules
outside `src/`; per the spec it wraps the engine's container-encode
primitive (`EVP_marshal_public_key`) for the same point. -/
def encode_container (E : Engine) (evp_pkey : EVP_PKEY) : Except Unspecified (List Nat) :=
  match E.EVP_marshal_public_key evp_pkey with
  | some der => .ok der
  | none => .error .unspecified

/-- A minimal concrete engine used to instantiate theorems: every
primitive fails and the consistency check rejects every key. -/
def nullEngine : Engine :=
  ⟨fun _ => false, fun _ => none, fun _ => none, fun _ _ => none,
   fun _ _ _ => none, fun _ => none, fun _ _ => none, fun _ => none, fun _ => none⟩

/-- First slice write of `ecdsa_asn1_to_fixed`: r's bytes land
right-justified in the first half of the zeroed `2n`-byte buffer. -/
theorem sliceWrite_fill_r (n : Nat) (rb : List Nat) (hr : rb.length ≤ n) :
    sliceWrite (List.replicate (2 * n) 0) (n - rb.length) n rb =
      some (List.replicate (n - rb.length) 0 ++ rb ++ List.replicate n 0) := by
  unfold sliceWrite
  rw [if_pos ⟨by omega, by rw [List.length_replicate]; omega, by omega⟩]
  rw [List.take_replicate, List.drop_replicate]
  have h1 : min (n - rb.length) (2 * n) = n - rb.length := by omega
  have h2 : 2 * n - n = n := by omega
  rw [h1, h2]

/-- Second slice write of `ecdsa_asn1_to_fixed`: s's bytes land
right-justified in the second half, preserving the first half. -/
theorem sliceWrite_fill_s (n : Nat) (rb sb : List Nat)
    (hr : rb.length ≤ n) (hs : sb.length ≤ n) :
    sliceWrite (List.replicate (n - rb.length) 0 ++ rb ++ List.replicate n 0)
      (2 * n - sb.length) (2 * n) sb =
      some (List.replicate (n - rb.length) 0 ++ rb ++
        List.replicate (n - sb.length) 0 ++ sb) := by
  have hL : (List.replicate (n - rb.length) (0 : Nat) ++ rb ++
      List.replicate n 0).length = 2 * n := by
    simp [List.length_append, List.length_replicate]
    omega
  unfold sliceWrite
  rw [if_pos ⟨by omega, by rw [hL], by omega⟩]
  have hdrop : (List.replicate (n - rb.length) (0 : Nat) ++ rb ++
      List.replicate n 0).drop (2 * n) = [] := by
    rw [← hL]
    exact List.drop_length _
  rw [hdrop, List.append_nil]
  have h3 : 2 * n - sb.length =
      (List.replicate (n - rb.length) (0 : Nat)).length + (rb.length + (n - sb.length)) := by
    rw [List.length_replicate]
    omega
  rw [List.append_assoc, h3, List.take_append, List.take_append, List.take_replicate]
  have h4 : min (n - sb.length) n = n - sb.length := by omega
  rw [h4]
  simp [List.append_assoc]

/-- Core computation of `ecdsa_asn1_to_fixed` when the parse succeeds and
both components fit into `n` bytes. -/
theorem ecdsa_asn1_to_fixed_of_le (parse : List Nat → Option (Nat × Nat)) (n : Nat)
    (sig : List Nat) (r s : Nat) (hp : parse sig = some (r, s))
    (hr : (beBytes r).length ≤ n) (hs : (beBytes s).length ≤ n) :
    ecdsa_asn1_to_fixed parse n sig =
      ConvResult.ok (List.replicate (n - (beBytes r).length) 0 ++ beBytes r ++
        List.replicate (n - (beBytes s).length) 0 ++ beBytes s) := by
  have h1 : checkedSub n (beBytes r).length = some (n - (beBytes r).length) := by
    simp [checkedSub, hr]
  have hs2 : (beBytes s).length ≤ 2 * n := by omega
  have h2 : checkedSub (2 * n) (beBytes s).length = some (2 * n - (beBytes s).length) := by
    simp [checkedSub, hs2]
  simp only [ecdsa_asn1_to_fixed, hp, h1, h2, sliceWrite_fill_r n (beBytes r) hr,
    sliceWrite_fill_s n (beBytes r) (beBytes s) hr hs]

/-- C1 (amended): in the embedded model, `ecdsa_asn1_to_fixed` returns
`Err(Unspecified)` exactly when the engine's tagged-format parse fails; a
successfully parsed signature never produces `Unspecified`, whatever the
byte lengths of its components (oversized components instead yield a
panic or an overlapping — corrupted — success, see the counterexample). -/
theorem ecdsa_asn1_to_fixed_unspecified_iff_parse_fails
    (parse : List Nat → Option (Nat × Nat)) (n : Nat) (sig : List Nat) :
    ecdsa_asn1_to_fixed parse n sig = ConvResult.errUnspecified ↔ parse sig = none := by
  cases hp : parse sig with
  | none => simp [ecdsa_asn1_to_fixed, hp]
  | some rs =>
    obtain ⟨r, s⟩ := rs
    simp only [ecdsa_asn1_to_fixed, hp]
    constructor
    · intro h
      exfalso
      repeat' split at h
      all_goals simp at h
    · intro h
      simp at h

/-- C1 (counterexample): with curve scalar length `n = 1` and a parsed
signature whose `s` component occupies 2 bytes (`s = 256 > 255`), the
claim demands a failure with `Unspecified`; the code instead returns a
successful — and corrupted — fixed-width signature, because the second
slice write silently overlaps the first half. -/
theorem ecdsa_asn1_to_fixed_oversized_s_counterexample :
    ecdsa_asn1_to_fixed (fun _ => some (1, 256)) 1 [] = ConvResult.ok [1, 0] ∧
      1 < (beBytes 256).length :=
  ⟨rfl, by decide⟩

/-- C5: for components that fit into the curve's scalar byte length `n`,
the fixed-width output is exactly `2n` bytes: r's big-endian bytes
right-justified in bytes `[0, n)` with zero left-padding, s's big-endian
bytes right-justified in bytes `[n, 2n)` with zero left-padding. -/
theorem ecdsa_asn1_to_fixed_layout (parse : List Nat → Option (Nat × Nat)) (n : Nat)
    (sig : List Nat) (r s : Nat) (hp : parse sig = some (r, s))
    (hr : (beBytes r).length ≤ n) (hs : (beBytes s).length ≤ n) :
    ecdsa_asn1_to_fixed parse n sig =
      ConvResult.ok (List.replicate (n - (beBytes r).length) 0 ++ beBytes r ++
        List.replicate (n - (beBytes s).length) 0 ++ beBytes s) ∧
    (List.replicate (n - (beBytes r).length) 0 ++ beBytes r ++
        List.replicate (n - (beBytes s).length) 0 ++ beBytes s).length = 2 * n := by
  refine ⟨ecdsa_asn1_to_fixed_of_le parse n sig r s hp hr hs, ?_⟩
  simp [List.length_append, List.length_replicate]
  omega

/-- C5 (witness): concrete instance with `n = 2`, `r = 3`, `s = 5`. -/
theorem ecdsa_asn1_to_fixed_layout_witness :
    ecdsa_asn1_to_fixed (fun _ => some (3, 5)) 2 [48] =
      ConvResult.ok (List.replicate (2 - (beBytes 3).length) 0 ++ beBytes 3 ++
        List.replicate (2 - (beBytes 5).length) 0 ++ beBytes 5) ∧
    (List.replicate (2 - (beBytes 3).length) 0 ++ beBytes 3 ++
        List.replicate (2 - (beBytes 5).length) 0 ++ beBytes 5).length = 2 * 2 :=
  ecdsa_asn1_to_fixed_layout (fun _ => some (3, 5)) 2 [48] 3 5 rfl (by decide) (by decide)

/-- C10: when the parsed components fit into `n` bytes, the two `usize`
index subtractions do not underflow and the buffer-filling step cannot
panic. -/
theorem ecdsa_asn1_to_fixed_no_panic_of_le (parse : List Nat → Option (Nat × Nat))
    (n : Nat) (sig : List Nat) (r s : Nat) (hp : parse sig = some (r, s))
    (hr : (beBytes r).length ≤ n) (hs : (beBytes s).length ≤ n) :
    checkedSub n (beBytes r).length ≠ none ∧
    checkedSub (2 * n) (beBytes s).length ≠ none ∧
    ecdsa_asn1_to_fixed parse n sig ≠ ConvResult.panic := by
  have hs2 : (beBytes s).length ≤ 2 * n := by omega
  refine ⟨by simp [checkedSub, hr], by simp [checkedSub, hs2], ?_⟩
  rw [ecdsa_asn1_to_fixed_of_le parse n sig r s hp hr hs]
  simp

/-- C10 (witness): concrete instance with `n = 3`, `r = 9`, `s = 300`. -/
theorem ecdsa_asn1_to_fixed_no_panic_witness :
    checkedSub 3 (beBytes 9).length ≠ none ∧
    checkedSub (2 * 3) (beBytes 300).length ≠ none ∧
    ecdsa_asn1_to_fixed (fun _ => some (9, 300)) 3 [7] ≠ ConvResult.panic :=
  ecdsa_asn1_to_fixed_no_panic_of_le (fun _ => some (9, 300)) 3 [7] 9 300 rfl
    (by decide) (by decide)

/-- C6: when the input byte length exceeds the engine's length
representation (`C_LONG_MAX`), private-key import fails with `too_large`.
The statement quantifies over every engine, so the result is independent
of the engine's parser — no parse of the bytes is attempted. -/
theorem unmarshal_der_to_private_key_too_large (E : Engine) (key_bytes : List Nat)
    (nid : Int) (h : C_LONG_MAX < key_bytes.length) :
    unmarshal_der_to_private_key E key_bytes nid = .error .too_large := by
  simp [unmarshal_der_to_private_key, h]

/-- C6 (witness): a `2^63`-byte input (one past the representable
maximum) is rejected with `too_large` even on an engine whose parser
always fails. -/
theorem unmarshal_der_to_private_key_too_large_witness :
    unmarshal_der_to_private_key nullEngine (List.replicate (2 ^ 63) 0) 1 =
      .error .too_large :=
  unmarshal_der_to_private_key_too_large nullEngine _ 1
    (by rw [List.length_replicate]; decide)

/-- C8: private-key export, given a key holding an EC key with a private
scalar: it returns what the engine's fixed-width conversion primitive
produces and fails with `Unspecified` exactly when that primitive reports
failure; every successful buffer has length exactly `private_size` and is
the scalar's big-endian bytes left-padded with zeros.  (The size
assertion in the source is `debug_assert!`, not a control-flow branch.) -/
theorem marshal_private_key_to_buffer_spec (private_size : Nat) (evp_pkey : EVP_PKEY)
    (k : EC_KEY) (d : Nat) (h1 : evp_pkey.ec_key = some k) (h2 : k.private_key = some d) :
    marshal_private_key_to_buffer private_size evp_pkey =
      (match BN_bn2bin_padded private_size d with
       | some buffer => .ok buffer
       | none => .error .unspecified) ∧
    (marshal_private_key_to_buffer private_size evp_pkey = .error .unspecified ↔
      BN_bn2bin_padded private_size d = none) ∧
    (∀ buffer, marshal_private_key_to_buffer private_size evp_pkey = .ok buffer →
      buffer.length = private_size ∧
      buffer = List.replicate (private_size - BN_num_bytes d) 0 ++ beBytes d) := by
  have hm : marshal_private_key_to_buffer private_size evp_pkey =
      (match BN_bn2bin_padded private_size d with
       | some buffer => .ok buffer
       | none => .error .unspecified) := by
    simp [marshal_private_key_to_buffer, h1, h2]
  refine ⟨hm, ?_, ?_⟩
  · rw [hm]
    cases hb : BN_bn2bin_padded private_size d <;> simp
  · intro buffer hbuf
    rw [hm] at hbuf
    cases hb : BN_bn2bin_padded private_size d with
    | none =>
      rw [hb] at hbuf
      simp at hbuf
    | some b =>
      rw [hb] at hbuf
      simp at hbuf
      unfold BN_bn2bin_padded at hb
      by_cases hfit : BN_num_bytes d ≤ private_size
      · rw [if_pos hfit] at hb
        simp at hb
        subst hbuf
        rw [← hb]
        constructor
        · rw [List.length_append, List.length_replicate]
          unfold BN_num_bytes at hfit ⊢
          omega
        · rfl
      · rw [if_neg hfit] at hb
        simp at hb

/-- C8 (witness): exporting the scalar 3 into 2 bytes yields `[0, 3]`. -/
theorem marshal_private_key_to_buffer_witness :
    marshal_private_key_to_buffer 2 (⟨some ⟨some ⟨1⟩, some 3, none⟩⟩ : EVP_PKEY) =
      .ok [0, 3] := by
  rw [(marshal_private_key_to_buffer_spec 2 (⟨some ⟨some ⟨1⟩, some 3, none⟩⟩ : EVP_PKEY)
    ⟨some ⟨1⟩, some 3, none⟩ 3 rfl rfl).1]
  rfl

/-- C9: for every field bit-length, the compressed point size is
`1 + scalar_len` and the uncompressed size is `1 + 2 * scalar_len`, where
`scalar_len` is exactly the ceiling of `bits / 8` (characterised as the
least byte count covering the bits). -/
theorem public_key_size_bytes_spec (curve_field_bits : Nat) :
    compressed_public_key_size_bytes curve_field_bits =
      1 + scalar_len_bytes curve_field_bits ∧
    uncompressed_public_key_size_bytes curve_field_bits =
      1 + 2 * scalar_len_bytes curve_field_bits ∧
    curve_field_bits ≤ 8 * scalar_len_bytes curve_field_bits ∧
    (∀ k, curve_field_bits ≤ 8 * k → scalar_len_bytes curve_field_bits ≤ k) := by
  refine ⟨rfl, rfl, ?_, fun k hk => ?_⟩ <;> unfold scalar_len_bytes <;> omega

/-- C9 (witness): the P-521 sizes — scalar length 66, compressed 67,
uncompressed 133. -/
theorem public_key_size_bytes_witness :
    compressed_public_key_size_bytes 521 = 1 + scalar_len_bytes 521 ∧
    uncompressed_public_key_size_bytes 521 = 1 + 2 * scalar_len_bytes 521 ∧
    521 ≤ 8 * scalar_len_bytes 521 ∧ scalar_len_bytes 521 ≤ 66 :=
  ⟨(public_key_size_bytes_spec 521).1, (public_key_size_bytes_spec 521).2.1,
   (public_key_size_bytes_spec 521).2.2.1,
   (public_key_size_bytes_spec 521).2.2.2 66 (by norm_num)⟩

/-- Engine for the C2 counterexample: group lookup and raw-point decode
succeed, but the structural consistency check rejects every key. -/
def rawDecodeCheckFailEngine : Engine :=
  ⟨fun _ => false, fun _ => none, fun nid => some ⟨nid⟩, fun _ _ => some 9,
   fun _ _ _ => none, fun _ => none, fun _ _ => none, fun _ => none, fun _ => none⟩

/-- C2 (counterexample): the raw-point stage is claimed not to run any
separate validator consistency check, so with a successful decode it
would have to succeed; in fact, with the engine's decode succeeding
(`EC_POINT_oct2point` returns a point) the stage still fails, because
`evp_pkey_from_public_point` runs `validate_evp_key` and the consistency
check rejects the assembled key. -/
theorem try_parse_raw_bytes_counterexample :
    rawDecodeCheckFailEngine.EC_GROUP_new_by_curve_name 1 = some ⟨1⟩ ∧
    rawDecodeCheckFailEngine.EC_POINT_oct2point ⟨1⟩ [4, 9] = some 9 ∧
    try_parse_public_key_raw_bytes rawDecodeCheckFailEngine [4, 9] 1 =
      .error .unspecified ∧
    validate_evp_key rawDecodeCheckFailEngine ⟨some ⟨some ⟨1⟩, none, some 9⟩⟩ 1 =
      .error .inconsistent_components :=
  ⟨rfl, rfl, rfl, rfl⟩

/-- C2 (amended): the raw-point stage does re-validate: after the
engine's decode-time membership check it runs `validate_evp_key` against
the nid read from the caller-derived group, so the stage's result is
exactly the engine's consistency-check verdict (failure mapped to
`Unspecified`), while the curve-identifier comparison inside the
validator trivially passes. -/
theorem try_parse_raw_bytes_runs_validator (E : Engine) (key_bytes : List Nat)
    (expected_curve_nid : Int) (g : ECGroup) (p : Nat)
    (hg : E.EC_GROUP_new_by_curve_name expected_curve_nid = some g)
    (hp : E.EC_POINT_oct2point g key_bytes = some p) :
    try_parse_public_key_raw_bytes E key_bytes expected_curve_nid =
      (if E.EC_KEY_check_key ⟨some g, none, some p⟩
       then .ok ⟨some ⟨some g, none, some p⟩⟩
       else .error .unspecified) ∧
    verify_ec_key_nid ⟨some g, none, some p⟩ g.nid = .ok () := by
  constructor
  · simp only [try_parse_public_key_raw_bytes, ec_group_from_nid, hg,
      ec_point_from_bytes, hp, evp_pkey_from_public_point, validate_evp_key,
      verify_ec_key_nid]
    by_cases hc : E.EC_KEY_check_key ⟨some g, none, some p⟩
    · simp [hc]
    · simp [hc]
  · simp [verify_ec_key_nid]

/-- Engine for the C2 witness: raw decode succeeds and the consistency
check accepts. -/
def rawDecodeOkEngine : Engine :=
  ⟨fun _ => true, fun _ => none, fun nid => some ⟨nid⟩, fun _ _ => some 5,
   fun _ _ _ => none, fun _ => none, fun _ _ => none, fun _ => none, fun _ => none⟩

/-- C2 (witness): concrete raw-point parse on nid 7. -/
theorem try_parse_raw_bytes_runs_validator_witness :
    try_parse_public_key_raw_bytes rawDecodeOkEngine [4, 5] 7 =
      (if rawDecodeOkEngine.EC_KEY_check_key ⟨some ⟨7⟩, none, some 5⟩
       then .ok ⟨some ⟨some ⟨7⟩, none, some 5⟩⟩
       else .error .unspecified) ∧
    verify_ec_key_nid ⟨some ⟨7⟩, none, some 5⟩ (⟨7⟩ : ECGroup).nid = .ok () :=
  try_parse_raw_bytes_runs_validator rawDecodeOkEngine [4, 5] 7 ⟨7⟩ 5 rfl rfl

/-- A key returned by the raw-point stage passes `validate_evp_key`
against the expected nid, provided the engine's group lookup honours the
requested nid (the engine contract for `EC_GROUP_new_by_curve_name`). -/
theorem try_parse_raw_ok_validates (E : Engine) (b : List Nat) (nid : Int)
    (hcontract : ∀ n2 g2, E.EC_GROUP_new_by_curve_name n2 = some g2 → g2.nid = n2)
    (k : EVP_PKEY) (hk : try_parse_public_key_raw_bytes E b nid = .ok k) :
    validate_evp_key E k nid = .ok () := by
  simp only [try_parse_public_key_raw_bytes, ec_group_from_nid, ec_point_from_bytes] at hk
  cases hg : E.EC_GROUP_new_by_curve_name nid with
  | none => simp [hg] at hk
  | some g =>
    simp only [hg] at hk
    cases hp : E.EC_POINT_oct2point g b with
    | none => simp [hp] at hk
    | some p =>
      simp only [hp, evp_pkey_from_public_point] at hk
      cases hv : validate_evp_key E ⟨some ⟨some g, none, some p⟩⟩ g.nid with
      | ok u =>
        cases u
        simp only [hv] at hk
        simp at hk
        subst hk
        rw [← hcontract nid g hg]
        exact hv
      | error e =>
        simp only [hv] at hk
        simp at hk

/-- Engine for the C3 counterexample: its private-key parser returns a
key that the structural consistency check rejects. -/
def importBadKeyEngine : Engine :=
  ⟨fun _ => false, fun _ => none, fun _ => none, fun _ _ => none,
   fun _ _ _ => none, fun _ => some ⟨some ⟨some ⟨7⟩, some 11, some 13⟩⟩,
   fun _ _ => none, fun _ => none, fun _ => none⟩

/-- C3 (counterexample): on the private-container import path (default,
non-FIPS build) the full `validate_evp_key` is not run — only the curve
nid is checked — so a key rejected by the validator's consistency check
is returned to the caller: here import succeeds while `validate_evp_key`
fails with `inconsistent_components` on the very key returned. -/
theorem import_skips_consistency_check_counterexample :
    unmarshal_der_to_private_key importBadKeyEngine [1] 7 =
      .ok ⟨some ⟨some ⟨7⟩, some 11, some 13⟩⟩ ∧
    validate_evp_key importBadKeyEngine ⟨some ⟨some ⟨7⟩, some 11, some 13⟩⟩ 7 =
      .error .inconsistent_components :=
  ⟨rfl, rfl⟩

/-- C3 (amended): the public-point, private-scalar-derivation, explicit
assembly and two-stage public-decode paths all run `validate_evp_key`
before returning (so keys failing it are unobservable there, with
consistency failure mapped to `inconsistent_components` before the
callers' error conversion); the private-container import path (default,
non-FIPS build) runs only the curve-identifier check — a parsed key is
returned only if its nid matches, a mismatch fails with
`wrong_algorithm` (the spec's `WrongCurve`) — and delegates the
consistency check to the engine's parser (`d2i_PrivateKey` internally
runs `EC_KEY_check_key`, per the source comment). -/
theorem key_construction_validation_paths (E : Engine) (g : ECGroup) (p d : Nat)
    (po : Option Nat) (b : List Nat) (nid : Int) :
    (∀ k, evp_pkey_from_public_point E g p = .ok k →
      validate_evp_key E k g.nid = .ok ()) ∧
    (∀ k, evp_pkey_from_private E g d = .ok k →
      validate_evp_key E k g.nid = .ok ()) ∧
    (∀ k, evp_key_from_public_private E g po d = .ok k →
      validate_evp_key E k g.nid = .ok ()) ∧
    ((∀ n2 g2, E.EC_GROUP_new_by_curve_name n2 = some g2 → g2.nid = n2) →
      ∀ k, try_parse_public_key_bytes E b nid = .ok k →
        validate_evp_key E k nid = .ok ()) ∧
    (∀ k, unmarshal_der_to_private_key E b nid = .ok k →
      verify_evp_key_nid k nid = .ok ()) ∧
    (∀ k, E.d2i_PrivateKey b = some k → b.length ≤ C_LONG_MAX →
      verify_evp_key_nid k nid = .error .wrong_algorithm →
      unmarshal_der_to_private_key E b nid = .error .wrong_algorithm) := by
  refine ⟨?_, ?_, ?_, ?_, ?_, ?_⟩
  · intro k hk
    simp only [evp_pkey_from_public_point] at hk
    cases hv : validate_evp_key E ⟨some ⟨some g, none, some p⟩⟩ g.nid with
    | ok u =>
      cases u
      simp only [hv] at hk
      simp at hk
      subst hk
      exact hv
    | error e =>
      simp only [hv] at hk
      simp at hk
  · intro k hk
    simp only [evp_pkey_from_private] at hk
    cases hm : E.EC_POINT_mul g d with
    | none => simp [hm] at hk
    | some q =>
      simp only [hm] at hk
      cases hv : validate_evp_key E ⟨some ⟨some g, some d, some q⟩⟩ g.nid with
      | ok u =>
        cases u
        simp only [hv] at hk
        simp at hk
        subst hk
        exact hv
      | error e =>
        simp only [hv] at hk
        simp at hk
  · intro k hk
    simp only [evp_key_from_public_private] at hk
    cases hv : validate_evp_key E ⟨some ⟨some g, some d, po⟩⟩ g.nid with
    | ok u =>
      cases u
      simp only [hv] at hk
      simp at hk
      subst hk
      exact hv
    | error e =>
      simp only [hv] at hk
      simp at hk
  · intro hcontract k hk
    simp only [try_parse_public_key_bytes, resultOr] at hk
    cases h1 : try_parse_subject_public_key_info_bytes E b with
    | ok key =>
      simp only [h1] at hk
      cases hv : validate_evp_key E key nid with
      | ok u =>
        cases u
        simp only [hv] at hk
        simp at hk
        subst hk
        exact hv
      | error e =>
        simp only [hv] at hk
        exact try_parse_raw_ok_validates E b nid hcontract k hk
    | error e =>
      simp only [h1] at hk
      exact try_parse_raw_ok_validates E b nid hcontract k hk
  · intro k hk
    simp only [unmarshal_der_to_private_key] at hk
    by_cases hlen : C_LONG_MAX < b.length
    · simp [hlen] at hk
    · simp only [if_neg hlen] at hk
      cases hd : E.d2i_PrivateKey b with
      | none => simp [hd] at hk
      | some key =>
        simp only [hd] at hk
        cases hv : verify_evp_key_nid key nid with
        | ok u =>
          cases u
          simp only [hv] at hk
          simp at hk
          subst hk
          exact hv
        | error e =>
          simp only [hv] at hk
          simp at hk
  · intro k hd hlen hv
    simp only [unmarshal_der_to_private_key, if_neg (Nat.not_lt.mpr hlen), hd, hv]

/-- Engine for the C3 witness: its private-key parser returns a key on
the expected curve. -/
def importOkEngine : Engine :=
  ⟨fun _ => true, fun _ => none, fun _ => none, fun _ _ => none, fun _ _ _ => none,
   fun _ => some ⟨some ⟨some ⟨5⟩, some 2, some 4⟩⟩, fun _ _ => none,
   fun _ => none, fun _ => none⟩

/-- C3 (witness): a concrete successful import on nid 5; the theorem
yields that the returned key passes the curve-identifier check. -/
theorem key_construction_validation_paths_witness :
    verify_evp_key_nid ⟨some ⟨some ⟨5⟩, some 2, some 4⟩⟩ 5 = .ok () :=
  (key_construction_validation_paths importOkEngine ⟨5⟩ 0 0 none [9] 5).2.2.2.2.1
    ⟨some ⟨some ⟨5⟩, some 2, some 4⟩⟩ rfl

/-- C4: the decode with fallback.  First conjunct: the combined result
equals stage 1 (container parse then validation) when that stage
succeeds, and is exactly the raw-point stage's result whenever stage 1
failed — i.e. the fallback is taken exactly on stage-1 failure, where
failure is a malformed container or a validator rejection.  Second
conjunct: the combined operation fails with `Unspecified` precisely when
the container stage failed (parse failure, or parse success followed by
validator rejection) and the raw-point stage failed too. -/
theorem try_parse_public_key_bytes_fallback (E : Engine) (key_bytes : List Nat)
    (nid : Int) :
    try_parse_public_key_bytes E key_bytes nid =
      (match
        (match try_parse_subject_public_key_info_bytes E key_bytes with
         | .ok key =>
           match validate_evp_key E key nid with
           | .ok () => Except.ok key
           | .error _ => Except.error Unspecified.unspecified
         | .error e => .error e) with
       | .ok key => .ok key
       | .error _ => try_parse_public_key_raw_bytes E key_bytes nid) ∧
    (try_parse_public_key_bytes E key_bytes nid = .error .unspecified ↔
      ((E.EVP_parse_public_key key_bytes = none ∨
        (∃ k, E.EVP_parse_public_key key_bytes = some k ∧
          validate_evp_key E k nid ≠ .ok ())) ∧
       try_parse_public_key_raw_bytes E key_bytes nid = .error .unspecified)) := by
  constructor
  · simp only [try_parse_public_key_bytes, resultOr]
    cases h1 : try_parse_subject_public_key_info_bytes E key_bytes with
    | ok key =>
      simp only [h1]
      cases hv : validate_evp_key E key nid with
      | ok u =>
        cases u
        simp only [hv]
      | error e =>
        simp only [hv]
    | error e => simp only [h1]
  · simp only [try_parse_public_key_bytes, resultOr,
      try_parse_subject_public_key_info_bytes]
    cases hs : E.EVP_parse_public_key key_bytes with
    | none => simp
    | some k =>
      cases hv : validate_evp_key E k nid with
      | ok u =>
        cases u
        simp [hv]
      | error e =>
        simp [hv]

/-- C4 (witness): with an engine on which both stages fail, the combined
parse fails with `Unspecified`, obtained from the iff. -/
theorem try_parse_public_key_bytes_fallback_witness :
    try_parse_public_key_bytes nullEngine [1, 2] 1 = .error .unspecified :=
  (try_parse_public_key_bytes_fallback nullEngine [1, 2] 1).2.mpr ⟨Or.inl rfl, rfl⟩

/-- C7: round-trip of a freshly generated key's public point through both
encodings.  The hypotheses are the engine's fixed contracts on the
specific key (spec section 6): the container parser inverts the container
encoder up to dropping the private part, the raw-point decoder inverts
the point encoder, a raw octet string is not a parseable container, the
group lookup returns the key's group, and the generated key's public part
passes the engine's consistency check.  Under them, the codec pipeline of
`ec.rs` — `marshal_public_key_to_buffer` for the uncompressed raw form
and the two-stage `try_parse_public_key_bytes` for decoding — returns in
both cases a key bearing a point equal to the generated key's point `p`. -/
theorem public_key_roundtrip (E : Engine) (nid : Int) (K : EVP_PKEY) (kk : EC_KEY)
    (g gC : ECGroup) (p : Nat) (der octets buf : List Nat)
    (_hgen : evp_key_generate E nid = .ok K)
    (hK : K.ec_key = some kk) (hgrp : kk.group = some g) (_hgnid : g.nid = nid)
    (hpub : kk.public_key = some p)
    (_henc : encode_container E K = .ok der)
    (hparse : E.EVP_parse_public_key der = some ⟨some ⟨some gC, none, some p⟩⟩)
    (hgC : gC.nid = nid)
    (hchk1 : E.EC_KEY_check_key ⟨some gC, none, some p⟩ = true)
    (h2o : E.EC_POINT_point2oct g p false = some octets)
    (hne : octets ≠ []) (hfit : octets.length ≤ buf.length)
    (hnc : E.EVP_parse_public_key octets = none)
    (hlup : E.EC_GROUP_new_by_curve_name nid = some g)
    (hdec : E.EC_POINT_oct2point g octets = some p)
    (hchk2 : E.EC_KEY_check_key ⟨some g, none, some p⟩ = true) :
    try_parse_public_key_bytes E der nid = .ok ⟨some ⟨some gC, none, some p⟩⟩ ∧
    marshal_public_key_to_buffer E buf K false =
      .ok (octets.length, octets ++ buf.drop octets.length) ∧
    try_parse_public_key_bytes E octets nid = .ok ⟨some ⟨some g, none, some p⟩⟩ := by
  have h0 : ¬ octets.length = 0 := by
    simpa [List.length_eq_zero] using hne
  have hlt : ¬ buf.length < octets.length := Nat.not_lt.mpr hfit
  refine ⟨?_, ?_, ?_⟩
  · have hst1 : try_parse_subject_public_key_info_bytes E der =
        .ok ⟨some ⟨some gC, none, some p⟩⟩ := by
      simp [try_parse_subject_public_key_info_bytes, hparse]
    have hval : validate_evp_key E ⟨some ⟨some gC, none, some p⟩⟩ nid = .ok () := by
      simp [validate_evp_key, verify_ec_key_nid, hgC, hchk1]
    simp [try_parse_public_key_bytes, resultOr, hst1, hval]
  · simp [marshal_public_key_to_buffer, marshal_ec_public_key_to_buffer, hK, hgrp,
      hpub, ec_point_to_bytes, h2o, h0, hlt]
  · simp [try_parse_public_key_bytes, resultOr, try_parse_subject_public_key_info_bytes,
      hnc, try_parse_public_key_raw_bytes, ec_group_from_nid, hlup,
      ec_point_from_bytes, hdec, evp_pkey_from_public_point, validate_evp_key,
      verify_ec_key_nid, hchk2]

/-- Engine for the C7 witness: a one-curve, one-key toy engine whose
encode and decode primitives are mutually inverse on that key. -/
def roundTripEngine : Engine :=
  ⟨fun _ => true,
   fun b => if b = [48, 9] then some ⟨some ⟨some ⟨1⟩, none, some 5⟩⟩ else none,
   fun n => if n = 1 then some ⟨1⟩ else none,
   fun g2 b => if g2 = ⟨1⟩ ∧ b = [4, 5] then some 5 else none,
   fun g2 pt c => if g2 = ⟨1⟩ ∧ pt = 5 ∧ c = false then some [4, 5] else none,
   fun _ => none,
   fun _ _ => none,
   fun n => if n = 1 then some ⟨some ⟨some ⟨1⟩, some 3, some 5⟩⟩ else none,
   fun k => if k = ⟨some ⟨some ⟨1⟩, some 3, some 5⟩⟩ then some [48, 9] else none⟩

/-- C7 (witness): the toy engine's generated key round-trips through both
the container form and the uncompressed raw form. -/
theorem public_key_roundtrip_witness :
    try_parse_public_key_bytes roundTripEngine [48, 9] 1 =
      .ok ⟨some ⟨some ⟨1⟩, none, some 5⟩⟩ ∧
    marshal_public_key_to_buffer roundTripEngine [0, 0]
        (⟨some ⟨some ⟨1⟩, some 3, some 5⟩⟩ : EVP_PKEY) false =
      .ok ([4, 5].length, [4, 5] ++ [0, 0].drop [4, 5].length) ∧
    try_parse_public_key_bytes roundTripEngine [4, 5] 1 =
      .ok ⟨some ⟨some ⟨1⟩, none, some 5⟩⟩ :=
  public_key_roundtrip roundTripEngine 1 ⟨some ⟨some ⟨1⟩, some 3, some 5⟩⟩
    ⟨some ⟨1⟩, some 3, some 5⟩ ⟨1⟩ ⟨1⟩ 5 [48, 9] [4, 5] [0, 0]
    rfl rfl rfl rfl rfl rfl rfl rfl rfl rfl (by decide) (by decide)
    rfl rfl rfl rfl
